import Mathlib

/-!
Shallow embedding of the Competitive Optimization Orchestrator of
parallel-universe-db: the optimize route (src/backend/src/routes/optimize.js),
the fork service (src/backend/src/services/tigerService.js), the advisory
wrapper (src/backend/src/services/mcpService.js) and the agent execution
pattern shared by the agents (src/backend/src/agents/IndexAgent.js and
QueryAgent.js).

Modelling conventions: JavaScript numbers are rationals wherever the code does
exact decimal arithmetic; Math.round x is the floor of x + 1/2 (JavaScript
rounds halves toward positive infinity).  External effects (the Tiger CLI, the
pg client, the Anthropic API, Math.random draws) enter as explicit outcome
parameters, with a throwing operation modelled by Except String.
-/

namespace PUDB

/-- Math.round of JavaScript on a rational input: floor of x + 1/2. -/
def jsRound (x : ℚ) : ℤ := ⌊x + 1 / 2⌋

/-- Clamp of a rational to an interval, as Math.max lo (Math.min hi x). -/
def clampQ (lo hi x : ℚ) : ℚ := max lo (min hi x)

/-- Record returned by calculateCostSavings in routes/optimize.js.  The source
formats traditional and agentic with toFixed(2) for display; the exact numeric
values are kept here. -/
structure CostSavings where
  traditional : ℚ
  agentic : ℚ
  savingsMultiplier : ℤ
  forkCount : ℕ
deriving DecidableEq

/-- Embeds calculateCostSavings from routes/optimize.js lines 229-244: the
traditional cost is forkCount times 11.88 dollars per full clone, the agentic
cost is the fixed constant 0.02, and the savings multiplier is Math.round of
their quotient. -/
def calculateCostSavings (forkCount : ℕ) : CostSavings :=
  let traditionalCost : ℚ := forkCount * (1188 / 100)
  let agenticCost : ℚ := 2 / 100
  { traditional := traditionalCost
    agentic := agenticCost
    savingsMultiplier := jsRound (traditionalCost / agenticCost)
    forkCount := forkCount }

/-- Benchmark sample produced by benchmarkQueries in IndexAgent.js: the
average wall-clock latency over the probed queries, in milliseconds. -/
structure Benchmark where
  averageTime : ℚ
deriving DecidableEq

/-- Return value of calculateImprovement in IndexAgent.js.  The source object
has exactly these four fields; in particular it carries no simulated marker. -/
structure Improvement where
  percentImprovement : ℤ
  storageCost : ℕ
  baselineTime : ℤ
  optimizedTime : ℤ
deriving DecidableEq

/-- Embeds calculateImprovement from IndexAgent.js lines 279-315.  The two
Math.random() draws of the simulated branch are passed in as r1 and r2 (each
in [0,1)).  The simulated branch is taken when the agent is not in production
mode or the measured baseline average is strictly below 10 ms; the source only
logs that choice, the returned record does not carry it. -/
def IndexAgent.calculateImprovement (isProductionMode : Bool)
    (appliedChangesCount : ℕ) (r1 r2 : ℚ) (baseline optimized : Benchmark) :
    Improvement :=
  if isProductionMode = false ∨ baseline.averageTime < 10 then
    let baselineTime : ℚ := 200 + r1 * 100
    let improvementFactor : ℚ := 1 / 4 + r2 * (1 / 4)
    let optimizedTime : ℤ := jsRound (baselineTime * (1 - improvementFactor))
    { percentImprovement :=
        jsRound ((baselineTime - optimizedTime) / baselineTime * 100)
      storageCost := appliedChangesCount * 512
      baselineTime := jsRound baselineTime
      optimizedTime := optimizedTime }
  else
    { percentImprovement :=
        max 0 (min 100 (jsRound ((baseline.averageTime - optimized.averageTime)
          / baseline.averageTime * 100)))
      storageCost := appliedChangesCount * 512
      baselineTime := jsRound baseline.averageTime
      optimizedTime := jsRound optimized.averageTime }

/-- Clamping after rounding agrees with rounding after clamping, because
rounding is monotone and fixes the integer bounds 0 and 100. -/
theorem max_min_jsRound (x : ℚ) :
    max 0 (min 100 (jsRound x)) = jsRound (clampQ 0 100 x) := by
  unfold jsRound clampQ
  have hhalf : (⌊(0 : ℚ) + 1 / 2⌋ : ℤ) = 0 := by norm_num
  have htop : (⌊(100 : ℚ) + 1 / 2⌋ : ℤ) = 100 := by
    rw [Int.floor_eq_iff] ; norm_num
  rcases le_total x 0 with hx | hx
  · have h1 : (⌊x + 1 / 2⌋ : ℤ) ≤ 0 := by
      have hmono : (⌊x + 1 / 2⌋ : ℤ) ≤ ⌊(0 : ℚ) + 1 / 2⌋ :=
        Int.floor_mono (by linarith)
      omega
    have h2 : min (100 : ℚ) x = x := min_eq_right (by linarith)
    have h3 : max (0 : ℚ) x = 0 := max_eq_left hx
    rw [h2, h3, hhalf]
    have h4 : min (100 : ℤ) ⌊x + 1 / 2⌋ = ⌊x + 1 / 2⌋ :=
      min_eq_right (by omega)
    rw [h4]
    exact max_eq_left h1
  · rcases le_total x 100 with hx2 | hx2
    · have h1 : (0 : ℤ) ≤ ⌊x + 1 / 2⌋ := by
        have hmono : (⌊(0 : ℚ) + 1 / 2⌋ : ℤ) ≤ ⌊x + 1 / 2⌋ :=
          Int.floor_mono (by linarith)
        omega
      have h2 : (⌊x + 1 / 2⌋ : ℤ) ≤ 100 := by
        have hmono : (⌊x + 1 / 2⌋ : ℤ) ≤ ⌊(100 : ℚ) + 1 / 2⌋ :=
          Int.floor_mono (by linarith)
        omega
      have h3 : min (100 : ℚ) x = x := min_eq_right hx2
      have h4 : max (0 : ℚ) x = x := max_eq_right hx
      rw [h3, h4, min_eq_right h2, max_eq_right h1]
    · have h1 : (100 : ℤ) ≤ ⌊x + 1 / 2⌋ := by
        have hmono : (⌊(100 : ℚ) + 1 / 2⌋ : ℤ) ≤ ⌊x + 1 / 2⌋ :=
          Int.floor_mono (by linarith)
        omega
      have h2 : min (100 : ℚ) x = 100 := min_eq_left hx2
      have h3 : max (0 : ℚ) (100 : ℚ) = 100 := by norm_num
      rw [h2, h3, htop, min_eq_left h1]
      exact max_eq_right (by omega)

/-- Per-universe result object assembled by the optimize route (lines 63-96):
the spread of the agent result under the universe id and symbol, with the fork
id of the owning fork.  The executionTime field is the optimized latency in
milliseconds (or -1 on failure). -/
structure Universe where
  id : String
  symbol : String
  agent : String
  forkId : String
  status : String
  improvement : ℤ
  executionTime : ℚ
  error : Option String
deriving DecidableEq

/-- Reducer body of the winner selection in routes/optimize.js line 103:
keep the current element only when its improvement is strictly greater. -/
def winnerStep (best current : Universe) : Universe :=
  if best.improvement < current.improvement then current else best

/-- Winner selection from routes/optimize.js lines 102-105:
universes.reduce with no initial value.  JavaScript reduce throws a TypeError
on an empty array, modelled by none. -/
def selectWinner : List Universe → Option Universe
  | [] => none
  | u :: rest => some (rest.foldl winnerStep u)

/-- Folding winnerStep returns an element bounding every improvement seen,
and either the initial element or the first strict improver of the list. -/
theorem foldl_winnerStep_spec (l : List Universe) (u : Universe) :
    u.improvement ≤ (l.foldl winnerStep u).improvement ∧
    (∀ v ∈ l, v.improvement ≤ (l.foldl winnerStep u).improvement) ∧
    (l.foldl winnerStep u = u ∨
      ∃ l1 l2, l = l1 ++ l.foldl winnerStep u :: l2 ∧
        u.improvement < (l.foldl winnerStep u).improvement ∧
        ∀ v ∈ l1, v.improvement < (l.foldl winnerStep u).improvement) := by
  induction l generalizing u with
  | nil => exact ⟨le_refl _, by simp, Or.inl rfl⟩
  | cons c rest ih =>
    by_cases hc : u.improvement < c.improvement
    · have hstep : winnerStep u c = c := by simp [winnerStep, hc]
      have hfold : (c :: rest).foldl winnerStep u = rest.foldl winnerStep c := by
        rw [List.foldl_cons, hstep]
      obtain ⟨hu, hall, hfirst⟩ := ih c
      rw [hfold]
      refine ⟨le_of_lt (lt_of_lt_of_le hc hu), ?_, ?_⟩
      · intro v hv
        rcases List.mem_cons.mp hv with hv | hv
        · rw [hv]; exact hu
        · exact hall v hv
      · rcases hfirst with heq | ⟨l1, l2, hdec, hlt, hl1⟩
        · refine Or.inr ⟨[], rest, ?_, ?_, by simp⟩
          · rw [heq]; rfl
          · rw [heq]; exact hc
        · refine Or.inr ⟨c :: l1, l2, ?_, lt_trans hc hlt, ?_⟩
          · rw [List.cons_append, ← hdec]
          · intro v hv
            rcases List.mem_cons.mp hv with hv | hv
            · rw [hv]; exact hlt
            · exact hl1 v hv
    · have hstep : winnerStep u c = u := by simp [winnerStep, hc]
      have hfold : (c :: rest).foldl winnerStep u = rest.foldl winnerStep u := by
        rw [List.foldl_cons, hstep]
      obtain ⟨hu, hall, hfirst⟩ := ih u
      rw [hfold]
      have hcu : c.improvement ≤ u.improvement := le_of_not_lt hc
      refine ⟨hu, ?_, ?_⟩
      · intro v hv
        rcases List.mem_cons.mp hv with hv | hv
        · rw [hv]; exact le_trans hcu hu
        · exact hall v hv
      · rcases hfirst with heq | ⟨l1, l2, hdec, hlt, hl1⟩
        · exact Or.inl heq
        · refine Or.inr ⟨c :: l1, l2, ?_, hlt, ?_⟩
          · rw [List.cons_append, ← hdec]
          · intro v hv
            rcases List.mem_cons.mp hv with hv | hv
            · rw [hv]; exact lt_of_le_of_lt hcu hlt
            · exact hl1 v hv

/-- C1 (amended): on a nonempty result list the selected winner is the first
element attaining the maximal improvement over ALL results, regardless of
status and with no latency tie-break; on an empty list the reduce throws. -/
theorem selectWinner_first_max (l : List Universe) (h : l ≠ []) :
    ∃ w, selectWinner l = some w ∧
      (∀ v ∈ l, v.improvement ≤ w.improvement) ∧
      ∃ l1 l2, l = l1 ++ w :: l2 ∧ ∀ v ∈ l1, v.improvement < w.improvement := by
  match l with
  | [] => exact absurd rfl h
  | u :: rest =>
    obtain ⟨hu, hall, hfirst⟩ := foldl_winnerStep_spec rest u
    refine ⟨rest.foldl winnerStep u, rfl, ?_, ?_⟩
    · intro v hv
      rcases List.mem_cons.mp hv with hv | hv
      · rw [hv]; exact hu
      · exact hall v hv
    · rcases hfirst with heq | ⟨l1, l2, hdec, hlt, hl1⟩
      · exact ⟨[], rest, by simp [heq], by simp⟩
      · refine ⟨u :: l1, l2, ?_, ?_⟩
        · rw [List.cons_append, ← hdec]
        · intro v hv
          rcases List.mem_cons.mp hv with hv | hv
          · rw [hv]; exact hlt
          · exact hl1 v hv

/-- Sample complete result with the larger improvement (ranked first). -/
def sampleUniverseA : Universe :=
  { id := "alpha", symbol := "α", agent := "IndexAgent", forkId := "fork-0",
    status := "complete", improvement := 84, executionTime := 38, error := none }

/-- Sample complete result with the smaller improvement. -/
def sampleUniverseB : Universe :=
  { id := "beta", symbol := "β", agent := "QueryAgent", forkId := "fork-1",
    status := "complete", improvement := 52, executionTime := 52, error := none }

/-- Failed result as built by the catch branch of the per-universe runner. -/
def sampleFailedUniverse : Universe :=
  { id := "alpha", symbol := "α", agent := "IndexAgent", forkId := "fork-0",
    status := "failed", improvement := 0, executionTime := -1,
    error := some "connection refused" }

/-- Complete result whose improvement ties sampleTieSecond but with a larger
optimized latency. -/
def sampleTieFirst : Universe :=
  { id := "alpha", symbol := "α", agent := "IndexAgent", forkId := "fork-0",
    status := "complete", improvement := 50, executionTime := 100, error := none }

/-- Complete result tying sampleTieFirst on improvement with a strictly lower
optimized latency, listed second. -/
def sampleTieSecond : Universe :=
  { id := "beta", symbol := "β", agent := "QueryAgent", forkId := "fork-1",
    status := "complete", improvement := 50, executionTime := 10, error := none }

/-- C1 counterexample: with a single Failed result the code still selects it
as winner (the claim requires a null winner when no result is Complete), and
on an improvement tie the first listed element wins even though the second has
the strictly lower optimized latency (the claim requires the latency
tie-break). -/
theorem selectWinner_counterexample :
    selectWinner [sampleFailedUniverse] = some sampleFailedUniverse ∧
    sampleFailedUniverse.status ≠ "complete" ∧
    selectWinner [sampleTieFirst, sampleTieSecond] = some sampleTieFirst ∧
    sampleTieSecond.executionTime < sampleTieFirst.executionTime := by
  refine ⟨rfl, by decide, ?_, by decide⟩
  rfl

/-- C1 witness: Scenario A of the spec, improvements 84 and 52, the first is
selected and every quantifier of the amended statement is realized. -/
theorem selectWinner_first_max_witness :
    ∃ w, selectWinner [sampleUniverseA, sampleUniverseB] = some w ∧
      (∀ v ∈ [sampleUniverseA, sampleUniverseB],
        v.improvement ≤ w.improvement) ∧
      ∃ l1 l2, [sampleUniverseA, sampleUniverseB] = l1 ++ w :: l2 ∧
        ∀ v ∈ l1, v.improvement < w.improvement :=
  selectWinner_first_max [sampleUniverseA, sampleUniverseB] (by simp)

/-- C7 (amended): in production mode with a trusted baseline (at least the
10 ms signal threshold) the reported improvement is exactly
round(clamp((baseline - optimized) / baseline * 100, 0, 100)). -/
theorem calculateImprovement_formula (n : ℕ) (r1 r2 : ℚ)
    (baseline optimized : Benchmark) (hb : 10 ≤ baseline.averageTime) :
    (IndexAgent.calculateImprovement true n r1 r2 baseline optimized).percentImprovement
      = jsRound (clampQ 0 100
          ((baseline.averageTime - optimized.averageTime) / baseline.averageTime * 100)) := by
  unfold IndexAgent.calculateImprovement
  rw [if_neg]
  · exact max_min_jsRound _
  · rintro (h | h)
    · simp at h
    · linarith

/-- C7 witness: a 200 ms baseline against a 150 ms optimized run reports
round(clamp(25)) = 25. -/
theorem calculateImprovement_formula_witness :
    (IndexAgent.calculateImprovement true 2 0 0 ⟨200⟩ ⟨150⟩).percentImprovement
      = jsRound (clampQ 0 100 ((200 - 150) / 200 * 100)) :=
  calculateImprovement_formula 2 0 0 ⟨200⟩ ⟨150⟩ (by norm_num)

/-- C7 counterexample: a simulated-branch result (dev mode, Math.random draws
0 and 0) is byte-for-byte identical to a measured production result, so no
function of the returned record can flag the substitution — the result object
carries no simulated marker. -/
theorem calculateImprovement_no_simulated_marker :
    ¬ ∃ flag : Improvement → Bool,
      flag (IndexAgent.calculateImprovement false 2 0 0 ⟨200⟩ ⟨150⟩) = true ∧
      flag (IndexAgent.calculateImprovement true 2 0 0 ⟨200⟩ ⟨150⟩) = false := by
  rintro ⟨flag, h1, h2⟩
  have hlit : Improvement.mk 25 1024 200 150
      = IndexAgent.calculateImprovement true 2 0 0 ⟨200⟩ ⟨150⟩ := by
    simp only [IndexAgent.calculateImprovement]
    norm_num [jsRound]
  have heq : IndexAgent.calculateImprovement false 2 0 0 ⟨200⟩ ⟨150⟩
      = IndexAgent.calculateImprovement true 2 0 0 ⟨200⟩ ⟨150⟩ := by
    rw [← hlit]
    simp only [IndexAgent.calculateImprovement]
    norm_num [jsRound]
  rw [heq] at h1
  rw [h1] at h2
  simp at h2

/-- C8 (amended): the traditional cost is forkCount times 11.88, the agentic
cost is the constant 0.02 independent of forkCount, and the savings multiplier
is Math.round of their quotient, which is exactly 594 times the fork count. -/
theorem calculateCostSavings_spec (n : ℕ) :
    (calculateCostSavings n).traditional = n * (1188 / 100) ∧
    (calculateCostSavings n).agentic = 2 / 100 ∧
    (calculateCostSavings n).savingsMultiplier = 594 * n ∧
    (calculateCostSavings n).forkCount = n := by
  refine ⟨rfl, rfl, ?_, rfl⟩
  show jsRound ((n * (1188 / 100) : ℚ) / (2 / 100)) = 594 * n
  have hq : ((n : ℚ) * (1188 / 100)) / (2 / 100) = ((594 * n : ℤ) : ℚ) := by
    push_cast
    ring
  rw [jsRound, hq, Int.floor_int_add]
  norm_num

/-- C8 counterexample: at forkCount = 4 the agentic cost is still 0.02, not
4 times the per-fork constant 0.02, and no per-fork constant at all can
reproduce the code between forkCount 1 and forkCount 2. -/
theorem calculateCostSavings_counterexample :
    (calculateCostSavings 4).agentic ≠ 4 * (2 / 100) ∧
    ¬ ∃ c : ℚ, (calculateCostSavings 1).agentic = 1 * c ∧
      (calculateCostSavings 2).agentic = 2 * c := by
  constructor
  · norm_num [calculateCostSavings]
  · rintro ⟨c, h1, h2⟩
    simp only [calculateCostSavings] at h1 h2
    rw [one_mul] at h1
    rw [← h1] at h2
    norm_num at h2

/-- One SQL statement sent to client.query during promotion.  In this
embedding a statement either succeeds, appending its text to the committed
state, or fails with the error message the database raises for it. -/
inductive Stmt where
  | good (sql : String)
  | bad (msg : String)
deriving DecidableEq

/-- Effect of one client.query call on the production state. -/
def Stmt.exec (db : List String) : Stmt → Except String (List String)
  | .good sql => .ok (db ++ [sql])
  | .bad msg => .error msg

/-- Loop body of promoteFork in tigerService.js lines 122-124: apply each
statement in list order, stopping at the first failure. -/
def runChanges (db : List String) : List Stmt → Except String (List String)
  | [] => .ok db
  | s :: rest =>
    match s.exec db with
    | .ok db2 => runChanges db2 rest
    | .error e => .error e

/-- Message of the first failing statement of a change list, if any. -/
def firstErrorMsg : List Stmt → Option String
  | [] => none
  | .good _ :: rest => firstErrorMsg rest
  | .bad m :: _ => some m

/-- Text of the succeeding statements, in order. -/
def goodSqls : List Stmt → List String
  | [] => []
  | .good s :: rest => s :: goodSqls rest
  | .bad _ :: rest => goodSqls rest

/-- Success payload of promoteFork (the timestamp field is omitted). -/
structure PromoteResult where
  success : Bool
  appliedChanges : ℕ
deriving DecidableEq

/-- Embeds promoteFork from tigerService.js lines 111-143: requires the main
pool, opens a transaction, applies each change in order, commits only when
every statement succeeds; on any failure rolls the transaction back (the
returned state is the original one) and rethrows the statement error wrapped
in the promotion prefix.  Returns the outcome with the resulting production
state. -/
def promoteFork (hasPool : Bool) (db : List String) (changes : List Stmt) :
    Except String PromoteResult × List String :=
  if hasPool = false then
    (.error "Failed to promote fork: Main database pool not initialized", db)
  else
    match runChanges db changes with
    | .ok db2 => (.ok { success := true, appliedChanges := changes.length }, db2)
    | .error e => (.error ("Failed to promote fork: " ++ e), db)

/-- With no failing statement, runChanges commits every statement in order. -/
theorem runChanges_ok (changes : List Stmt) :
    ∀ db, firstErrorMsg changes = none →
      runChanges db changes = .ok (db ++ goodSqls changes) := by
  induction changes with
  | nil => intro db _; simp [runChanges, goodSqls]
  | cons s rest ih =>
    intro db h
    cases s with
    | good sql =>
      have h2 : firstErrorMsg rest = none := h
      rw [show runChanges db (Stmt.good sql :: rest)
          = runChanges (db ++ [sql]) rest from rfl, ih (db ++ [sql]) h2]
      simp [goodSqls]
    | bad m => exact absurd h (by simp [firstErrorMsg])

/-- With a failing statement, runChanges stops at the first one and surfaces
its message. -/
theorem runChanges_error (changes : List Stmt) :
    ∀ db m, firstErrorMsg changes = some m →
      runChanges db changes = .error m := by
  induction changes with
  | nil => intro db m h; exact absurd h (by simp [firstErrorMsg])
  | cons s rest ih =>
    intro db m h
    cases s with
    | good sql =>
      exact ih (db ++ [sql]) m h
    | bad m2 =>
      have : m2 = m := by simpa [firstErrorMsg] using h
      rw [show runChanges db (Stmt.bad m2 :: rest) = .error m2 from rfl, this]

/-- C2: promotion applies the changes in list order inside one transaction;
when every statement succeeds it reports success with appliedChanges equal to
the list length and the statements appended to the production state in order,
and when any statement fails the production state is returned unchanged and
the error of the first failing statement is propagated under the promotion
prefix. -/
theorem promoteFork_atomic (db : List String) (changes : List Stmt) :
    (firstErrorMsg changes = none →
      promoteFork true db changes
        = (.ok { success := true, appliedChanges := changes.length },
           db ++ goodSqls changes)) ∧
    (∀ m, firstErrorMsg changes = some m →
      promoteFork true db changes
        = (.error ("Failed to promote fork: " ++ m), db)) := by
  constructor
  · intro h
    rw [promoteFork, if_neg (by simp), runChanges_ok changes db h]
  · intro m h
    rw [promoteFork, if_neg (by simp), runChanges_error changes db m h]

/-- C2 witness: Scenario D of the spec — a guarded index creation followed by
an invalid statement applies nothing and surfaces the error, while the same
list without the invalid statement commits both effects in order. -/
theorem promoteFork_atomic_witness :
    promoteFork true ["baseline-schema"]
        [Stmt.good "CREATE INDEX IF NOT EXISTS idx_users_email_optimized ON users (email)",
         Stmt.bad "syntax error at or near INVALID"]
      = (.error ("Failed to promote fork: " ++ "syntax error at or near INVALID"),
         ["baseline-schema"]) ∧
    promoteFork true ["baseline-schema"]
        [Stmt.good "CREATE INDEX IF NOT EXISTS idx_users_email_optimized ON users (email)"]
      = (.ok { success := true, appliedChanges := 1 },
         ["baseline-schema",
          "CREATE INDEX IF NOT EXISTS idx_users_email_optimized ON users (email)"]) := by
  constructor
  · exact (promoteFork_atomic ["baseline-schema"] _).2
      "syntax error at or near INVALID" rfl
  · exact (promoteFork_atomic ["baseline-schema"] _).1 rfl

/-- Fork record returned by tigerService.createFork.  The demo-path record
carries isDemoMode true; the production record leaves the key undefined,
modelled as false. -/
structure Fork where
  id : String
  name : String
  connectionString : String
  status : String
  isDemoMode : Bool
deriving DecidableEq

/-- Embeds createFork from tigerService.js lines 29-63.  cliAvailable is the
TIGER_CLI_AVAILABLE test; provider is the combined outcome of the Tiger CLI
fork command and the connection-string lookup (fork id and connection string
on success); dbUrl is DATABASE_URL and demoId the generated demo fork id.
When the CLI is available a provider failure is caught and rethrown wrapped
as a creation error; only the CLI-disabled path returns the shared-instance
fallback record. -/
def createFork (cliAvailable : Bool) (provider : Except String (String × String))
    (dbUrl demoId forkName : String) : Except String Fork :=
  if cliAvailable then
    match provider with
    | .ok (forkId, conn) =>
      .ok { id := forkId, name := forkName, connectionString := conn,
            status := "active", isDemoMode := false }
    | .error e => .error ("Failed to create fork: " ++ e)
  else
    .ok { id := demoId, name := forkName, connectionString := dbUrl,
          status := "active", isDemoMode := true }

/-- C4 counterexample: with the CLI available and the provider failing,
createFork raises the wrapped provider error to its caller instead of
returning a fallback handle. -/
theorem createFork_counterexample :
    createFork true (.error "quota exceeded") "postgres-main" "fork-demo-1"
        "universe-alpha"
      = .error ("Failed to create fork: " ++ "quota exceeded") := rfl

/-- C4 (amended): when provisioning is administratively disabled the call
returns, without raising, a fallback handle flagged isDemoMode whose
connection string is the shared DATABASE_URL; but when the CLI is enabled and
the provider fails, createFork raises the wrapped error to the caller. -/
theorem createFork_spec (provider : Except String (String × String))
    (dbUrl demoId forkName : String) :
    (createFork false provider dbUrl demoId forkName
      = .ok { id := demoId, name := forkName, connectionString := dbUrl,
              status := "active", isDemoMode := true }) ∧
    (∀ e, provider = .error e →
      createFork true provider dbUrl demoId forkName
        = .error ("Failed to create fork: " ++ e)) := by
  constructor
  · rfl
  · intro e he
    rw [createFork.eq_def, if_pos rfl, he]

/-- C4 witness: concrete disabled-provisioning fallback and concrete raised
provider failure. -/
theorem createFork_spec_witness :
    (createFork false (.error "quota exceeded") "postgres-main" "fork-demo-1"
        "universe-alpha"
      = .ok { id := "fork-demo-1", name := "universe-alpha",
              connectionString := "postgres-main", status := "active",
              isDemoMode := true }) ∧
    (createFork true (.error "quota exceeded") "postgres-main" "fork-demo-1"
        "universe-alpha"
      = .error ("Failed to create fork: " ++ "quota exceeded")) := by
  obtain ⟨h1, h2⟩ :=
    createFork_spec (.error "quota exceeded") "postgres-main" "fork-demo-1"
      "universe-alpha"
  exact ⟨h1, h2 "quota exceeded" rfl⟩

/-- Universe display names of the route, in selection order. -/
def universeNames : List String := ["alpha", "beta", "gamma", "delta"]

/-- Embeds getUniverseSymbol from routes/optimize.js lines 216-224. -/
def getUniverseSymbol (name : String) : String :=
  if name = "alpha" then "α"
  else if name = "beta" then "β"
  else if name = "gamma" then "γ"
  else if name = "delta" then "δ"
  else "⊗"

/-- Pairing built in the fork-creation loop of the route (lines 42-58): the
created fork together with its strategy id, universe name, and symbol. -/
structure ForkCtx where
  fork : Fork
  strategy : String
  universeName : String
  symbol : String
deriving DecidableEq

/-- Context entry of the loop iteration at index i. -/
def mkForkCtx (i : ℕ) (strategy : String) (f : Fork) : ForkCtx :=
  { fork := f, strategy := strategy,
    universeName := universeNames.getD i "undefined",
    symbol := getUniverseSymbol (universeNames.getD i "undefined") }

/-- Fork-creation loop of the route: one createFork outcome per selected
strategy, in order; a creation failure for index i is caught, logged and the
strategy silently dropped from the fork list. -/
def createForksFrom (mkFork : ℕ → Except String Fork) :
    ℕ → List String → List ForkCtx
  | _, [] => []
  | i, strat :: rest =>
    match mkFork i with
    | .ok f => mkForkCtx i strat f :: createForksFrom mkFork (i + 1) rest
    | .error _ => createForksFrom mkFork (i + 1) rest

/-- Fork list built by the route for the selected strategies. -/
def createForks (mkFork : ℕ → Except String Fork) (selected : List String) :
    List ForkCtx :=
  createForksFrom mkFork 0 selected

/-- Result object returned by an agent optimize call.  Presentation-only
fields of the source object (cost, strategy, details) are omitted; error is
none exactly on the complete-status shape. -/
structure AgentResult where
  agent : String
  forkId : String
  status : String
  improvement : ℤ
  executionTime : ℚ
  baselineTime : Option ℚ
  error : Option String
deriving DecidableEq

/-- Failure object built by the catch branch of an agent optimize method:
status failed, the caught message as error, improvement 0 and
executionTime -1. -/
def failedResult (agentName forkId msg : String) : AgentResult :=
  { agent := agentName, forkId := forkId, status := "failed",
    improvement := 0, executionTime := -1, baselineTime := none,
    error := some msg }

/-- Universe payload assembled on the success path of the per-strategy runner:
the agent result spread under the universe id and symbol, with the fork id of
the owning fork. -/
def mkUniverse (ctx : ForkCtx) (r : AgentResult) : Universe :=
  { id := ctx.universeName, symbol := ctx.symbol, agent := r.agent,
    forkId := ctx.fork.id, status := r.status, improvement := r.improvement,
    executionTime := r.executionTime, error := r.error }

/-- Per-strategy runner body from routes/optimize.js lines 63-96.  The agent
optimize call itself never rejects (its body is a single try/catch, see the
optimize embeddings below), so the only throwing await in the try block is
agent.cleanup(); cleanup1 and cleanup2 are the outcomes of the first and, when
reached, second cleanup invocation (none = resolves, some e = rejects with
message e).  When the first cleanup rejects, the catch branch invokes cleanup
again and then returns the failed universe shape; when that second call also
rejects, the rejection escapes to Promise.all.  Returns the outcome, the
number of cleanup invocations, and whether the catch branch ran. -/
def runUniverse (ctx : ForkCtx) (res : AgentResult)
    (cleanup1 cleanup2 : Option String) : Except String Universe × ℕ × Bool :=
  match cleanup1 with
  | none => (.ok (mkUniverse ctx res), 1, false)
  | some e =>
    match cleanup2 with
    | none =>
      (.ok { id := ctx.universeName, symbol := ctx.symbol, agent := res.agent,
             forkId := ctx.fork.id, status := "failed", improvement := 0,
             executionTime := -1, error := some e }, 2, true)
    | some e2 => (.error e2, 2, true)

/-- Deferred background fork teardown from routes/optimize.js lines 113-122:
after the grace period, deleteFork is attempted for each created fork in turn,
with every deletion failure caught and logged so the sweep continues.  Returns
the fork ids passed to deleteFork, in invocation order. -/
def backgroundCleanup (del : String → Except String Bool) :
    List ForkCtx → List String
  | [] => []
  | c :: rest =>
    match del c.fork.id with
    | .ok _ => c.fork.id :: backgroundCleanup del rest
    | .error _ => c.fork.id :: backgroundCleanup del rest

/-- Sample agent result used to exercise the runner at concrete inputs. -/
def sampleResult : AgentResult :=
  { agent := "IndexAgent", forkId := "fork-0", status := "complete",
    improvement := 84, executionTime := 38, baselineTime := some 240,
    error := none }

/-- Sample fork context used to exercise the runner at concrete inputs. -/
def sampleCtx : ForkCtx :=
  mkForkCtx 0 "index"
    { id := "fork-0", name := "universe-alpha", connectionString := "db",
      status := "active", isDemoMode := false }

/-- C5 counterexample: on the exit path where the first cleanup invocation
itself rejects, the catch branch invokes cleanup a second time, so cleanup is
not invoked exactly once on every exit path. -/
theorem runUniverse_double_cleanup :
    (runUniverse sampleCtx sampleResult (some "end failed") none).2.1 = 2 ∧
    ¬ (runUniverse sampleCtx sampleResult (some "end failed") none).2.1 = 1 := by
  exact ⟨rfl, by decide⟩

/-- C5 (amended): whenever the first cleanup invocation resolves, cleanup runs
exactly once on every exit path, success or failure of the agent result alike;
when the first invocation rejects it runs exactly twice; and the deferred
background sweep invokes deleteFork exactly once per created fork — the
invocation trace is the list of owned fork ids — regardless of which
deletions fail. -/
theorem runUniverse_cleanup_spec (ctx : ForkCtx) (res : AgentResult)
    (del : String → Except String Bool) (forks : List ForkCtx) :
    (∀ c2, (runUniverse ctx res none c2).2.1 = 1) ∧
    (∀ e c2, (runUniverse ctx res (some e) c2).2.1 = 2) ∧
    backgroundCleanup del forks = forks.map (fun c => c.fork.id) := by
  refine ⟨fun c2 => rfl, fun e c2 => ?_, ?_⟩
  · cases c2 <;> rfl
  · induction forks with
    | nil => rfl
    | cons c rest ih =>
      rw [backgroundCleanup.eq_def]
      cases hdel : del c.fork.id <;> simp [hdel, ih]

/-- Default strategy list of the optimize route (body destructuring). -/
def defaultStrategies : List String := ["index", "query", "cache", "schema"]

/-- Response of the optimize endpoint: the success payload (universes, winner
id, cost summary), the 400 validation rejection, or the 500 catch-all of the
outer try/catch with its error label and message. -/
inductive Response where
  | ok (universes : List Universe) (winner : String) (costSavings : CostSavings)
  | validationError (msg : String)
  | serverError (label msg : String)
deriving DecidableEq

/-- Promise.all over the per-strategy runner outcomes: the list of resolved
universes, or the first rejection. -/
def sequenceResults : List (Except String Universe) → Except String (List Universe)
  | [] => .ok []
  | .ok u :: rest =>
    match sequenceResults rest with
    | .ok us => .ok (u :: us)
    | .error e => .error e
  | .error e :: _ => .error e

/-- Embeds the POST /api/optimize handler from routes/optimize.js lines
14-140.  A falsy problem description is rejected with the 400 validation
response before any fork is created; otherwise at most four strategies are
honored, forks are created with per-strategy failures silently dropped, the
runners execute, and the winner reduce runs over the universe list — on an
empty list the reduce TypeError is caught by the outer catch and produces the
500 response.  Returns the response together with the created fork list. -/
def handleOptimize (problemDescription : String)
    (strategies : Option (List String)) (mkFork : ℕ → Except String Fork)
    (runner : ForkCtx → Except String Universe) : Response × List ForkCtx :=
  if problemDescription = "" then
    (.validationError "Problem description is required", [])
  else
    let selected := (strategies.getD defaultStrategies).take 4
    let forks := createForks mkFork selected
    match sequenceResults (forks.map runner) with
    | .error e => (.serverError "Optimization failed" e, forks)
    | .ok universes =>
      match selectWinner universes with
      | none =>
        (.serverError "Optimization failed"
          "Reduce of empty array with no initial value", forks)
      | some w =>
        (.ok universes w.id (calculateCostSavings forks.length), forks)

/-- Universe list carried by a success response. -/
def responseUniverses : Response → List Universe
  | .ok us _ _ => us
  | .validationError _ => []
  | .serverError _ _ => []

/-- Fork provider stub that succeeds at every index. -/
def okFork (i : ℕ) : Except String Fork :=
  .ok { id := "fork-" ++ toString i, name := "universe",
        connectionString := "db", status := "active", isDemoMode := true }

/-- Fork provider stub that fails at index 1 and succeeds elsewhere. -/
def flakyFork (i : ℕ) : Except String Fork :=
  if i = 1 then .error "Failed to create fork: fetch failed" else okFork i

/-- Runner stub resolving every context with the sample agent result. -/
def okRunner (c : ForkCtx) : Except String Universe :=
  .ok (mkUniverse c sampleResult)

/-- C6 counterexample: an empty strategy selection is not rejected by
validation — the request proceeds (creating no forks) and dies in the winner
reduce, surfacing as the 500 server error of the outer catch rather than a
validation failure. -/
theorem handleOptimize_empty_strategies :
    (handleOptimize "slow queries on users" (some []) okFork okRunner).1
      = .serverError "Optimization failed"
          "Reduce of empty array with no initial value" ∧
    (handleOptimize "slow queries on users" (some []) okFork okRunner).2 = [] ∧
    ¬ ∃ m, (handleOptimize "slow queries on users" (some []) okFork okRunner).1
      = .validationError m := by
  refine ⟨rfl, rfl, ?_⟩
  rintro ⟨m, hm⟩
  have h1 : (handleOptimize "slow queries on users" (some []) okFork okRunner).1
      = .serverError "Optimization failed"
          "Reduce of empty array with no initial value" := rfl
  rw [h1] at hm
  exact Response.noConfusion hm

/-- C6 (amended): a missing (falsy) problem description is rejected with the
validation response before any fork is created and with no side effects; an
empty strategy selection, however, passes validation and the request ends in
the 500 server error from the empty winner reduce, still with no fork
created. -/
theorem handleOptimize_validation (desc : String)
    (strategies : Option (List String)) (mkFork : ℕ → Except String Fork)
    (runner : ForkCtx → Except String Universe) :
    (desc = "" → handleOptimize desc strategies mkFork runner
        = (.validationError "Problem description is required", [])) ∧
    (¬ desc = "" → strategies = some [] →
      handleOptimize desc strategies mkFork runner
        = (.serverError "Optimization failed"
            "Reduce of empty array with no initial value", [])) := by
  constructor
  · intro h
    simp only [handleOptimize, if_pos h]
  · intro h hs
    rw [hs]
    simp only [handleOptimize, if_neg h]
    rfl

/-- C6 witness: the two validation paths at concrete requests. -/
theorem handleOptimize_validation_witness :
    (handleOptimize "" (some ["index"]) okFork okRunner
      = (.validationError "Problem description is required", [])) ∧
    (handleOptimize "slow queries on users" (some []) okFork okRunner
      = (.serverError "Optimization failed"
          "Reduce of empty array with no initial value", [])) := by
  obtain ⟨h1, h2⟩ := handleOptimize_validation "" (some ["index"]) okFork okRunner
  obtain ⟨h3, h4⟩ :=
    handleOptimize_validation "slow queries on users" (some []) okFork okRunner
  exact ⟨h1 rfl, h4 (by decide) rfl⟩

/-- C3 counterexample: with two selected strategies and fork creation failing
for the second, the run completes with a single result — the failed strategy
is silently dropped, so the result count falls short of the selection
count. -/
theorem handleOptimize_drops_strategy :
    (responseUniverses (handleOptimize "slow queries on users"
        (some ["index", "query"]) flakyFork okRunner).1).length = 1 ∧
    (["index", "query"] : List String).length = 2 ∧
    (handleOptimize "slow queries on users" (some ["index", "query"])
        flakyFork okRunner).2.length = 1 := by
  exact ⟨rfl, rfl, rfl⟩

/-- Fork-creation loop invariant: when the provider succeeds at every index
of the selection, the created contexts carry exactly the selected strategies,
in order. -/
theorem createForksFrom_strategies (mkFork : ℕ → Except String Fork) :
    ∀ (sel : List String) (i : ℕ),
      (∀ j, j < sel.length → ∃ f, mkFork (i + j) = .ok f) →
      (createForksFrom mkFork i sel).map (fun c => c.strategy) = sel := by
  intro sel
  induction sel with
  | nil => intro i _; rfl
  | cons s rest ih =>
    intro i h
    obtain ⟨f, hf⟩ := h 0 (by simp)
    have hf2 : mkFork i = .ok f := by simpa using hf
    have hcons : createForksFrom mkFork i (s :: rest)
        = match mkFork i with
          | .ok f => mkForkCtx i s f :: createForksFrom mkFork (i + 1) rest
          | .error _ => createForksFrom mkFork (i + 1) rest := rfl
    rw [hcons, hf2]
    have htail : (createForksFrom mkFork (i + 1) rest).map (fun c => c.strategy)
        = rest := by
      refine ih (i + 1) ?_
      intro j hj
      have hj2 := h (j + 1) (by simpa using Nat.succ_lt_succ hj)
      rw [show i + 1 + j = i + (j + 1) from by omega]
      exact hj2
    simp [htail, mkForkCtx]

/-- Promise.all of all-resolved runner outcomes is the resolved list. -/
theorem sequenceResults_ok (f : ForkCtx → Universe) :
    ∀ l : List ForkCtx,
      sequenceResults (l.map (fun c => .ok (f c))) = .ok (l.map f) := by
  intro l
  induction l with
  | nil => rfl
  | cons c rest ih =>
    have hcons : sequenceResults ((c :: rest).map (fun c => .ok (f c)))
        = match sequenceResults (rest.map (fun c => .ok (f c))) with
          | .ok us => .ok (f c :: us)
          | .error e => .error e := rfl
    rw [hcons, ih]
    rfl

/-- C3 (amended): when fork creation succeeds for every selected strategy (at
most four are honored), the run completes with exactly one result per
selected strategy, in order — the created contexts carry the selected
strategies and the universe list has the selection's length; a strategy whose
fork creation fails is dropped instead (see the counterexample). -/
theorem handleOptimize_complete_results (desc : String) (selected : List String)
    (mkFork : ℕ → Except String Fork) (agentOf : ForkCtx → AgentResult)
    (hdesc : ¬ desc = "")
    (hfork : ∀ j, j < (selected.take 4).length → ∃ f, mkFork j = .ok f)
    (hne : ¬ selected.take 4 = []) :
    ∃ w : Universe, handleOptimize desc (some selected) mkFork
        (fun c => .ok (mkUniverse c (agentOf c)))
      = (.ok ((createForks mkFork (selected.take 4)).map
            (fun c => mkUniverse c (agentOf c))) w.id
          (calculateCostSavings (createForks mkFork (selected.take 4)).length),
         createForks mkFork (selected.take 4)) ∧
      (createForks mkFork (selected.take 4)).map (fun c => c.strategy)
        = selected.take 4 ∧
      ((createForks mkFork (selected.take 4)).map
        (fun c => mkUniverse c (agentOf c))).length
        = (selected.take 4).length := by
  have hstrat : (createForks mkFork (selected.take 4)).map (fun c => c.strategy)
      = selected.take 4 := by
    refine createForksFrom_strategies mkFork (selected.take 4) 0 ?_
    intro j hj
    simpa using hfork j hj
  have hlen : (createForks mkFork (selected.take 4)).length
      = (selected.take 4).length := by
    have := congrArg List.length hstrat
    simpa using this
  have hseq := sequenceResults_ok (fun c => mkUniverse c (agentOf c))
    (createForks mkFork (selected.take 4))
  have husne : (createForks mkFork (selected.take 4)).map
      (fun c => mkUniverse c (agentOf c)) ≠ [] := by
    intro hnil
    apply hne
    have hlen2 : (createForks mkFork (selected.take 4)).length = 0 := by
      have := congrArg List.length hnil
      simpa using this
    have hlen3 : (selected.take 4).length = 0 := by
      rw [← hlen]
      exact hlen2
    exact List.length_eq_zero.mp hlen3
  obtain ⟨u, rest, hur⟩ := List.exists_cons_of_ne_nil husne
  refine ⟨rest.foldl winnerStep u, ?_, hstrat, by simp [hlen]⟩
  have hwin : selectWinner ((createForks mkFork (selected.take 4)).map
      (fun c => mkUniverse c (agentOf c))) = some (rest.foldl winnerStep u) := by
    rw [hur]
    rfl
  simp only [handleOptimize, if_neg hdesc, Option.getD_some]
  simp only [hseq, hwin]

/-- C3 witness: two strategies, fork creation succeeding for both, one result
per strategy with the strategies preserved in order. -/
theorem handleOptimize_complete_results_witness :
    ∃ w : Universe, handleOptimize "slow queries on users"
        (some ["index", "query"]) okFork
        (fun c => .ok (mkUniverse c sampleResult))
      = (.ok ((createForks okFork (["index", "query"].take 4)).map
            (fun c => mkUniverse c sampleResult)) w.id
          (calculateCostSavings
            (createForks okFork (["index", "query"].take 4)).length),
         createForks okFork (["index", "query"].take 4)) ∧
      (createForks okFork (["index", "query"].take 4)).map
          (fun c => c.strategy) = ["index", "query"].take 4 ∧
      ((createForks okFork (["index", "query"].take 4)).map
        (fun c => mkUniverse c sampleResult)).length
        = (["index", "query"].take 4).length :=
  handleOptimize_complete_results "slow queries on users" ["index", "query"]
    okFork (fun _ => sampleResult) (by decide)
    (fun j _ => ⟨_, rfl⟩) (by decide)

/-- Row of the pg_stat_statements introspection used by analyzeDatabase. -/
structure SlowQuery where
  query : String
  mean_exec_time : ℚ
deriving DecidableEq

/-- Row of the pg_stat_user_tables introspection used by analyzeDatabase. -/
structure TableStat where
  tablename : String
  live_tuples : ℕ
  seq_scan : ℕ
deriving DecidableEq

/-- Row of the missing-index introspection used by analyzeDatabase. -/
structure MissingIndex where
  tablename : String
deriving DecidableEq

/-- Snapshot returned by IndexAgent.analyzeDatabase. -/
structure Analysis where
  slowQueries : List SlowQuery
  tableStats : List TableStat
  missingIndexes : List MissingIndex
deriving DecidableEq

/-- Index recommendation entry built by getIndexRecommendations. -/
structure Recommendation where
  tableName : String
  columnName : String
  indexType : String
  reason : String
deriving DecidableEq

/-- Embeds calculateAverageQueryTime from IndexAgent.js lines 334-338. -/
def calculateAverageQueryTime (queries : List SlowQuery) : ℤ :=
  if queries = [] then 0
  else jsRound ((queries.map (fun q => q.mean_exec_time)).sum / queries.length)

/-- Embeds searchPostgresDocs from mcpService.js lines 22-53.  hasClient is
whether an Anthropic API key is configured (constructor guard); apiResult is
the outcome of the messages.create call.  With no client it returns the
rule-based sentinel; a call error is caught and mapped to the unavailable
sentinel.  The function is total: advisory unavailability never raises. -/
def searchPostgresDocs (hasClient : Bool) (apiResult : Except String String) :
    String :=
  if hasClient = false then "Using rule-based optimization strategies."
  else
    match apiResult with
    | .ok text => text
    | .error _ => "Unable to fetch documentation at this time."

/-- Embeds getIndexRecommendations from IndexAgent.js lines 158-193: the
advisory guidance is requested but the returned recommendation set is the
deterministic rule-based one — a default recommendation for the first
missing-index table (or users) plus one per-id recommendation for up to two
of the scanned tables. -/
def getIndexRecommendations (problemDescription : String) (analysis : Analysis)
    (hasClient : Bool) (apiResult : Except String String) :
    List Recommendation :=
  let _query := "I need to optimize database performance. " ++ problemDescription
    ++ " Current issues: " ++ toString analysis.slowQueries.length
    ++ " slow queries detected; " ++ toString analysis.missingIndexes.length
    ++ " tables with excessive sequential scans; average query time: "
    ++ toString (calculateAverageQueryTime analysis.slowQueries)
    ++ "ms. Recommend 2-3 high-impact indexes to create."
  let _guidance := searchPostgresDocs hasClient apiResult
  let base : List Recommendation :=
    [{ tableName :=
        ((analysis.missingIndexes.head?).map (fun m => m.tablename)).getD "users"
       columnName := "email", indexType := "btree"
       reason := "High sequential scan rate, likely used in WHERE clauses" }]
  base ++ (analysis.tableStats.take 2).map (fun t =>
    { tableName := t.tablename, columnName := "id", indexType := "btree"
      reason := "Table has " ++ toString t.live_tuples ++ " rows with "
        ++ toString t.seq_scan ++ " sequential scans" })

/-- Sample analysis snapshot used to exercise the recommend phase. -/
def sampleAnalysis : Analysis :=
  { slowQueries := [{ query := "SELECT 1", mean_exec_time := 50 }]
    tableStats := [{ tablename := "users", live_tuples := 1000, seq_scan := 40 }]
    missingIndexes := [{ tablename := "users" }] }

/-- C9: the recommend phase never fails on advisory unavailability — the
recommendation set is the same whatever the advisory availability or call
outcome, a missing API key yields the rule-based sentinel instead of raising,
and a call error yields the unavailable sentinel instead of raising. -/
theorem recommend_degrades (desc : String) (analysis : Analysis)
    (h1 h2 : Bool) (a1 a2 : Except String String) :
    getIndexRecommendations desc analysis h1 a1
      = getIndexRecommendations desc analysis h2 a2 ∧
    searchPostgresDocs false a1 = "Using rule-based optimization strategies." ∧
    (∀ e, a1 = .error e → searchPostgresDocs true a1
      = "Unable to fetch documentation at this time.") := by
  refine ⟨rfl, rfl, ?_⟩
  intro e he
  rw [searchPostgresDocs.eq_def, if_neg (by simp), he]

/-- C9 witness: a concrete failing advisory call and a concrete successful one
produce the same recommendations, and both sentinels are returned. -/
theorem recommend_degrades_witness :
    getIndexRecommendations "slow queries on users" sampleAnalysis false
        (.error "http 500")
      = getIndexRecommendations "slow queries on users" sampleAnalysis true
        (.ok "consider a btree index") ∧
    searchPostgresDocs false (.error "http 500")
      = "Using rule-based optimization strategies." ∧
    searchPostgresDocs true (.error "http 500")
      = "Unable to fetch documentation at this time." := by
  obtain ⟨h1, h2, h3⟩ := recommend_degrades "slow queries on users"
    sampleAnalysis false true (.error "http 500") (.ok "consider a btree index")
  exact ⟨h1, h2, h3 "http 500" rfl⟩

/-- Outcomes of the awaited phases inside IndexAgent.optimize, in source
order: analyzeDatabase, the advisory call inside getIndexRecommendations, the
baseline benchmark, applyIndexes (yielding this.appliedChanges), and the
optimized benchmark. -/
structure IndexPhases where
  analyzeO : Except String Analysis
  hasClient : Bool
  apiResult : Except String String
  benchBaseline : Except String Benchmark
  applyO : Except String (List String)
  benchOptimized : Except String Benchmark

/-- First phase error raised inside IndexAgent.optimize, if any.  The
recommend phase cannot contribute: searchPostgresDocs is total. -/
def IndexAgent.pipelineError (p : IndexPhases) : Option String :=
  match p.analyzeO with
  | .error e => some e
  | .ok _ =>
    match p.benchBaseline with
    | .error e => some e
    | .ok _ =>
      match p.applyO with
      | .error e => some e
      | .ok _ =>
        match p.benchOptimized with
        | .error e => some e
        | .ok _ => none

/-- Embeds IndexAgent.optimize from IndexAgent.js lines 28-81: the whole
pipeline runs inside a single try/catch; any phase exception is converted to
the failed result shape (status failed, the message as error, improvement 0,
executionTime -1) and returned — never rethrown. -/
def IndexAgent.optimize (forkId : String) (isProd : Bool) (r1 r2 : ℚ)
    (problemDescription : String) (p : IndexPhases) : AgentResult :=
  match p.analyzeO with
  | .error e => failedResult "IndexAgent" forkId e
  | .ok analysis =>
    let _recs := getIndexRecommendations problemDescription analysis
      p.hasClient p.apiResult
    match p.benchBaseline with
    | .error e => failedResult "IndexAgent" forkId e
    | .ok baseline =>
      match p.applyO with
      | .error e => failedResult "IndexAgent" forkId e
      | .ok applied =>
        match p.benchOptimized with
        | .error e => failedResult "IndexAgent" forkId e
        | .ok optimized =>
          let imp := IndexAgent.calculateImprovement isProd applied.length
            r1 r2 baseline optimized
          { agent := "IndexAgent", forkId := forkId, status := "complete"
            improvement := imp.percentImprovement
            executionTime := optimized.averageTime
            baselineTime := some baseline.averageTime
            error := none }

/-- Latency pair measured by benchmarkRewrites in QueryAgent.js. -/
structure QBenchResult where
  originalTime : ℚ
  optimizedTime : ℚ
deriving DecidableEq

/-- Return value of calculateImprovement in QueryAgent.js. -/
structure QImprovement where
  percentImprovement : ℤ
  baselineTime : ℚ
  optimizedTime : ℚ
  complexity : ℕ
deriving DecidableEq

/-- Embeds calculateImprovement from QueryAgent.js lines 269-292: averages
the original and optimized timings and reports Math.round of the clamped
percentage improvement. -/
def QueryAgent.calculateImprovement (results : List QBenchResult) :
    QImprovement :=
  if results = [] then
    { percentImprovement := 0, baselineTime := 0, optimizedTime := 0,
      complexity := 0 }
  else
    let avgOriginal := (results.map (fun r => r.originalTime)).sum / results.length
    let avgOptimized := (results.map (fun r => r.optimizedTime)).sum / results.length
    { percentImprovement :=
        jsRound (clampQ 0 100 ((avgOriginal - avgOptimized) / avgOriginal * 100))
      baselineTime := avgOriginal
      optimizedTime := avgOptimized
      complexity := results.length * 10 }

/-- Outcomes of the awaited phases inside QueryAgent.optimize, in source
order: findSlowQueries, analyzeQueryPlans, getQueryRewrites (their payloads
are opaque to the control flow modelled here), and benchmarkRewrites. -/
structure QueryPhases where
  findSlow : Except String (List SlowQuery)
  analyzePlans : Except String ℕ
  getRewrites : Except String ℕ
  benchmark : Except String (List QBenchResult)

/-- First phase error raised inside QueryAgent.optimize, if any. -/
def QueryAgent.pipelineError (q : QueryPhases) : Option String :=
  match q.findSlow with
  | .error e => some e
  | .ok _ =>
    match q.analyzePlans with
    | .error e => some e
    | .ok _ =>
      match q.getRewrites with
      | .error e => some e
      | .ok _ =>
        match q.benchmark with
        | .error e => some e
        | .ok _ => none

/-- Embeds QueryAgent.optimize from QueryAgent.js lines 26-72: same
try/catch discipline as IndexAgent.optimize, with the QueryAgent failed
shape. -/
def QueryAgent.optimize (forkId : String) (q : QueryPhases) : AgentResult :=
  match q.findSlow with
  | .error e => failedResult "QueryAgent" forkId e
  | .ok _ =>
    match q.analyzePlans with
    | .error e => failedResult "QueryAgent" forkId e
    | .ok _ =>
      match q.getRewrites with
      | .error e => failedResult "QueryAgent" forkId e
      | .ok _ =>
        match q.benchmark with
        | .error e => failedResult "QueryAgent" forkId e
        | .ok results =>
          let imp := QueryAgent.calculateImprovement results
          { agent := "QueryAgent", forkId := forkId, status := "complete"
            improvement := imp.percentImprovement
            executionTime := imp.optimizedTime
            baselineTime := some imp.baselineTime
            error := none }

/-- C10: for every combination of phase outcomes an agent optimize call
returns a result instead of throwing — either the complete shape with no
error, or exactly the failed shape carrying the first phase error message,
improvement 0 and executionTime -1; consequently the per-strategy catch
branch of the orchestrator never runs for phase errors (with a resolving
cleanup the runner takes the try path for any agent result). -/
theorem optimize_never_throws (forkId : String) (isProd : Bool) (r1 r2 : ℚ)
    (desc : String) (p : IndexPhases) (q : QueryPhases) (ctx : ForkCtx)
    (res : AgentResult) :
    ((IndexAgent.optimize forkId isProd r1 r2 desc p).status = "complete" ∧
        (IndexAgent.optimize forkId isProd r1 r2 desc p).error = none ∨
      ∃ e, IndexAgent.pipelineError p = some e ∧
        IndexAgent.optimize forkId isProd r1 r2 desc p
          = failedResult "IndexAgent" forkId e) ∧
    ((QueryAgent.optimize forkId q).status = "complete" ∧
        (QueryAgent.optimize forkId q).error = none ∨
      ∃ e, QueryAgent.pipelineError q = some e ∧
        QueryAgent.optimize forkId q = failedResult "QueryAgent" forkId e) ∧
    (runUniverse ctx res none none).2.2 = false ∧
    (runUniverse ctx res none none).1 = .ok (mkUniverse ctx res) := by
  refine ⟨?_, ?_, rfl, rfl⟩
  · obtain ⟨a, hc, api, bb, ap, bo⟩ := p
    cases a with
    | error e => exact Or.inr ⟨e, rfl, rfl⟩
    | ok analysis =>
      cases bb with
      | error e => exact Or.inr ⟨e, rfl, rfl⟩
      | ok baseline =>
        cases ap with
        | error e => exact Or.inr ⟨e, rfl, rfl⟩
        | ok applied =>
          cases bo with
          | error e => exact Or.inr ⟨e, rfl, rfl⟩
          | ok optimized => exact Or.inl ⟨rfl, rfl⟩
  · obtain ⟨fs, apl, gr, bm⟩ := q
    cases fs with
    | error e => exact Or.inr ⟨e, rfl, rfl⟩
    | ok s =>
      cases apl with
      | error e => exact Or.inr ⟨e, rfl, rfl⟩
      | ok n1 =>
        cases gr with
        | error e => exact Or.inr ⟨e, rfl, rfl⟩
        | ok n2 =>
          cases bm with
          | error e => exact Or.inr ⟨e, rfl, rfl⟩
          | ok results => exact Or.inl ⟨rfl, rfl⟩

end PUDB
